import Mathlib

/-!
Verification of the legal-document graph application.

The shared state schema, the step (node) functions and the graph wiring are
embedded from src/state.py, src/nodes.py and src/graph.py.  The graph
execution engine itself (superstep scheduling, fan-in merge of parallel task
updates, suspend/resume) is a library the repository builds on and its code is
not part of the source tree; those parts are modelled from the specification
and are marked `Modelled from the spec:` in their doc comments.  LLM calls are
opaque external collaborators: every node that performs one is parameterised
by the content value the call returned.
-/

namespace LegalDoc

/-- Model of a dynamically typed Python value, as far as the nodes of this
repository inspect one: the message content returned by an LLM call can be a
string, a list of blocks (each block a dict with string values, or any other
value), or any other value. -/
inductive PyVal where
  | pynone : PyVal
  | pybool (b : Bool) : PyVal
  | pyint (n : Int) : PyVal
  | pystr (s : String) : PyVal
  | pylist (xs : List PyVal) : PyVal
  | pydict (kvs : List (String × String)) : PyVal

mutual

/-- Model of the Python built-in str() conversion on PyVal values (the exact
rendering of non-string values is irrelevant to every claim; only that a
string comes out). -/
def pyStr : PyVal → String
  | .pynone => "None"
  | .pybool b => if b then "True" else "False"
  | .pyint n => toString n
  | .pystr s => s
  | .pylist xs => "[" ++ pyStrList xs ++ "]"
  | .pydict kvs =>
      "\x7b" ++ String.intercalate ", " (kvs.map fun kv => kv.1 ++ ": " ++ kv.2) ++ "\x7d"

/-- Comma-separated rendering of a list of PyVal values, used by pyStr. -/
def pyStrList : List PyVal → String
  | [] => ""
  | [x] => pyStr x
  | x :: xs => pyStr x ++ ", " ++ pyStrList xs

end

/-- Embeds the per-block expression of nodes.py line 30:
block.get("text", "") if isinstance(block, dict) else str(block). -/
def blockText : PyVal → String
  | .pydict kvs => (((kvs.find? fun kv => kv.1 == "text")).map Prod.snd).getD ""
  | b => pyStr b

/-- Embeds the content-coercion cascade of writer_node (nodes.py lines 28-33):
a string is kept, a list of blocks is joined block by block, and any other
value goes through str(). -/
def extractText : PyVal → String
  | .pystr s => s
  | .pylist bs => String.join (bs.map blockText)
  | v => pyStr v

/-- Embeds the weaker coercion used by thinker_node and answer_node (nodes.py
lines 91-93 and 110-112): only the list shape is joined; any other non-string
value is stored as it is. -/
def joinIfList : PyVal → PyVal
  | .pylist bs => .pystr (String.join (bs.map blockText))
  | v => v

/-- Embeds SectionResult of src/state.py: the result from a single writer
worker. -/
structure SectionResult where
  title : String
  content : String
  index : Nat
deriving DecidableEq

/-- Embeds DocumentState of src/state.py.  The two fields annotated with
operator.add in the source (completed_sections and generated_sections) carry
the accumulate merge policy; every other field carries the overwrite policy.
The Optional[str] fields of the QA part are Option-typed; thought_process and
final_answer hold a PyVal because thinker_node and answer_node store the LLM
content without forcing it to a string (see joinIfList). -/
structure DocumentState where
  contract_topic : String
  file_path : String
  sections_to_write : List String
  completed_sections : Nat
  generated_sections : List SectionResult
  qa_query : Option String
  thought_process : Option PyVal
  final_answer : Option PyVal

/-- Embeds WorkerState of src/state.py: state strictly for the isolated worker
nodes executing via Send; exactly the two fields section_topic and index,
never the full shared DocumentState. -/
structure WorkerState where
  section_topic : String
  index : Nat
deriving DecidableEq

/-- Embeds the Send task descriptor of graph.py: a target node name and the
isolated WorkerState payload handed to it. -/
structure Send where
  node : String
  arg : WorkerState
deriving DecidableEq

/-- Partial update to the shared state, as returned by a node: each field is
either absent (none) or written with a value of the field type.  The field
set mirrors DocumentState. -/
structure StateUpdate where
  contract_topic : Option String := none
  file_path : Option String := none
  sections_to_write : Option (List String) := none
  completed_sections : Option Nat := none
  generated_sections : Option (List SectionResult) := none
  qa_query : Option String := none
  thought_process : Option PyVal := none
  final_answer : Option PyVal := none

/-- The empty partial update: no field written.  This is what a Python node
returning the empty dict produces. -/
def emptyUpdate : StateUpdate := {}

/-- Applies one partial update to the state, field by field, under the merge
policies declared in src/state.py: completed_sections and generated_sections
accumulate with operator.add (numeric sum, list concatenation); every other
field is overwritten when present. -/
def applyUpdate (s : DocumentState) (u : StateUpdate) : DocumentState :=
  { contract_topic := u.contract_topic.getD s.contract_topic
    file_path := u.file_path.getD s.file_path
    sections_to_write := u.sections_to_write.getD s.sections_to_write
    completed_sections := s.completed_sections + u.completed_sections.getD 0
    generated_sections := s.generated_sections ++ u.generated_sections.getD []
    qa_query := match u.qa_query with | some v => some v | none => s.qa_query
    thought_process :=
      match u.thought_process with | some v => some v | none => s.thought_process
    final_answer := match u.final_answer with | some v => some v | none => s.final_answer }

/-- Embeds planner_node (nodes.py): the structured LLM call is opaque, so the
node is parameterised by the outline (list of section titles) it returned; the
node writes it to sections_to_write. -/
def planner_node (outline : List String) : StateUpdate :=
  { sections_to_write := some outline }

/-- Embeds writer_node (nodes.py): generates the content for a single section.
The LLM call is opaque, so the node is parameterised by the content value of
its response; the content stored in the SectionResult goes through the
extractText cascade.  The node writes only the two accumulate fields:
a one-element generated_sections list and completed_sections = 1. -/
def writer_node (state : WorkerState) (response_content : PyVal) : StateUpdate :=
  { generated_sections :=
      some [{ title := state.section_topic
              content := extractText response_content
              index := state.index }]
    completed_sections := some 1 }

/-- Embeds the sort of aggregator_node (nodes.py line 50): the generated
sections sorted by their original index.  Python sorted with key index is a
stable sort; insertionSort on index is stable in the same way. -/
def aggregatorSorted (state : DocumentState) : List SectionResult :=
  List.insertionSort (fun a b => a.index ≤ b.index) state.generated_sections

/-- Embeds the document text aggregator_node writes to state.file_path: the
topic header followed by every section, in sorted order, as a title header
plus the section content. -/
def aggregator_doc (state : DocumentState) : String :=
  "# " ++ state.contract_topic ++ "\n\n" ++
    String.join ((aggregatorSorted state).map fun sec =>
      "## " ++ sec.title ++ "\n\n" ++ sec.content ++ "\n\n")

/-- Embeds the state update returned by aggregator_node (nodes.py line 64):
the empty dict — the node communicates through the file system only. -/
def aggregator_node (_state : DocumentState) : StateUpdate :=
  emptyUpdate

/-- Model of os.path.dirname as used by aggregator_node on the configured
file path: everything before the final path separator. -/
def dirName (p : String) : String :=
  String.intercalate "/" ((p.splitOn "/").dropLast)

/-- The prompt passed to interrupt by wait_for_query_node (nodes.py line 68). -/
def waitPrompt : String :=
  "Document generation complete. Please enter your QA query."

/-- Outcome of running a step that may call interrupt: either the run is
suspended carrying the interrupt prompt, or the step completed and returned a
partial state update. -/
inductive WaitOutcome where
  | suspendedAt (prompt : String) : WaitOutcome
  | done (update : StateUpdate) : WaitOutcome
deriving Inhabited

/-- Embeds wait_for_query_node (nodes.py) together with the interrupt
semantics, which are Modelled from the spec: on first entry (no resume value
pending) the interrupt call pauses the run, surfacing the prompt, before any
update is produced; on re-entry after resume(v) the same interrupt call
returns v, and the node returns the update writing qa_query := v. -/
def wait_for_query_node (resumeValue : Option String) : WaitOutcome :=
  match resumeValue with
  | none => .suspendedAt waitPrompt
  | some v => .done { qa_query := some v }

/-- Embeds thinker_node (nodes.py): the LLM call on the document text and
query is opaque, so the node is parameterised by the content of its response;
the node stores it (list shapes joined) in thought_process. -/
def thinker_node (_state : DocumentState) (response_content : PyVal) : StateUpdate :=
  { thought_process := some (joinIfList response_content) }

/-- Embeds answer_node (nodes.py): the LLM call on the thought process and
query is opaque, so the node is parameterised by the content of its response;
the node stores it (list shapes joined) in final_answer. -/
def answer_node (_state : DocumentState) (response_content : PyVal) : StateUpdate :=
  { final_answer := some (joinIfList response_content) }

/-- Embeds assign_workers (graph.py): the conditional edge fans out one Send
per element of sections_to_write, targeting the writer node, with an isolated
two-field payload: that element as section_topic and its position as index. -/
def assign_workers (state : DocumentState) : List Send :=
  state.sections_to_write.enum.map fun p => ⟨"writer", ⟨p.2, p.1⟩⟩

/-- Modelled from the spec: the fan-in merge closing one superstep (Executor
step 3, not part of the source tree).  The tasks of the superstep are tagged
with their ordering key (their position in the dispatch list); `completed`
lists the pairs (key, partial update) in the order the tasks happened to
finish.  The Executor waits for all of them (barrier) and then applies every
update through the per-field merge policies in ascending key order — not in
completion order — which is what makes the merged result insensitive to
completion order. -/
def fanInMerge (s : DocumentState) (completed : List (Nat × StateUpdate)) : DocumentState :=
  ((List.insertionSort (fun a b => a.1 ≤ b.1) completed).map Prod.snd).foldl applyUpdate s

/-- Modelled from the spec: the superstep in which the writer tasks fanned out
by assign_workers run.  `resp` gives the (opaque) LLM response content of task
k; `order` lists the task keys in the order the tasks finished.  Each finished
task k contributes writer_node applied to the isolated payload of the k-th
Send descriptor, and the superstep closes with the fan-in merge. -/
def writerSuperstep (s : DocumentState) (resp : Nat → PyVal) (order : List Nat) :
    DocumentState :=
  fanInMerge s
    (order.filterMap fun k =>
      ((assign_workers s)[k]?).map fun t => (k, writer_node t.arg (resp k)))

/-- Result of driving the run onward from the suspending step: either a
Suspended signal carrying the interrupt prompt, or the final state. -/
inductive InvokeResult where
  | suspendedWith (prompt : String) : InvokeResult
  | finished (s : DocumentState) : InvokeResult

/-- Runs the static tail of the graph after wait_for_query (graph.py: the
edges wait_for_query -> thinker -> answer): each node runs against the state
produced so far and its update is merged before the next node runs.  The two
LLM response contents are the opaque parameters thinkResp and answerResp. -/
def runTail (s : DocumentState) (thinkResp answerResp : PyVal) : DocumentState :=
  let s1 := applyUpdate s (thinker_node s thinkResp)
  applyUpdate s1 (answer_node s1 answerResp)

/-- Modelled from the spec: an invoke (or resume) arriving at the suspending
step wait_for_query.  With no resume value pending the interrupt pauses the
run and the caller gets the Suspended signal; with a pending resume value v
the re-entered step observes v as the interrupt return, its update is merged,
and the run continues through the remaining supersteps to the final state. -/
def invokeAtWait (s : DocumentState) (resumeValue : Option String)
    (thinkResp answerResp : PyVal) : InvokeResult :=
  match wait_for_query_node resumeValue with
  | .suspendedAt p => .suspendedWith p
  | .done u => .finished (runTail (applyUpdate s u) thinkResp answerResp)

/-- Modelled from the spec: the hypothetical single-pass execution from the
suspending step onward, in which the suspend call returns v immediately
instead of pausing — the step writes qa_query = v and the tail of the graph
runs to completion. -/
def singlePassFromWait (s : DocumentState) (v : String)
    (thinkResp answerResp : PyVal) : DocumentState :=
  runTail { s with qa_query := some v } thinkResp answerResp

/-- The node names added to the builder in graph.py. -/
def nodeNames : List String :=
  ["planner", "writer", "aggregator", "wait_for_query", "thinker", "answer"]

/-- The static edges added to the builder in graph.py (START and END are the
virtual endpoints). -/
def staticEdges : List (String × String) :=
  [("START", "planner"), ("writer", "aggregator"), ("aggregator", "wait_for_query"),
   ("wait_for_query", "thinker"), ("thinker", "answer"), ("answer", "END")]

/-- The conditional edge added in graph.py: from planner, dispatched by
assign_workers, with possible target writer. -/
def conditionalEdge : String × List String := ("planner", ["writer"])

/-- Predecessor step names of a node: sources of static edges into it, plus
the source of the conditional edge when the node is among its targets. -/
def predecessors (n : String) : List String :=
  (staticEdges.filterMap fun e => if e.2 == n then some e.1 else none) ++
    (if conditionalEdge.2.contains n then [conditionalEdge.1] else [])

/-- Modelled from the spec: the ready-set computation of the Executor — a step
is ready when it has not yet run and every one of its predecessors has run in
a prior superstep (the virtual START counts as already run). -/
def readySteps (ran : List String) : List String :=
  nodeNames.filter fun n =>
    !(ran.contains n) && (predecessors n).all fun p => p == "START" || ran.contains p

/-- Modelled from the spec: the Executor loop — each superstep runs the whole
ready set (a fanned-out conditional edge runs all its tasks inside the one
superstep of its target), then the next ready set is computed; the run stops
when the ready set is empty.  Fuel bounds the iteration by the node count. -/
def scheduleAux : Nat → List String → List (List String)
  | 0, _ => []
  | Nat.succ fuel, ran =>
      let r := readySteps ran
      if r.isEmpty then [] else r :: scheduleAux fuel (ran ++ r)

/-- The superstep schedule of the compiled graph: the sequence of ready sets
from the empty history. -/
def schedule : List (List String) :=
  scheduleAux nodeNames.length []

/-- Names of the overwrite-policy fields (every field of DocumentState not
annotated with operator.add in src/state.py) that a partial update writes. -/
def writesOverwrite (u : StateUpdate) : List String :=
  (if u.contract_topic.isSome then ["contract_topic"] else []) ++
  (if u.file_path.isSome then ["file_path"] else []) ++
  (if u.sections_to_write.isSome then ["sections_to_write"] else []) ++
  (if u.qa_query.isSome then ["qa_query"] else []) ++
  (if u.thought_process.isSome then ["thought_process"] else []) ++
  (if u.final_answer.isSome then ["final_answer"] else [])

/-- Modelled from the spec: the ConflictingWriteError check — two updates of
one superstep writing the same overwrite-policy field is a fatal conflict. -/
def overwriteConflict : List StateUpdate → Bool
  | [] => false
  | u :: rest =>
      ((writesOverwrite u).any fun f => rest.any fun u2 => (writesOverwrite u2).contains f) ||
        overwriteConflict rest

/-- External action a node body performs, in program order: an (opaque) LLM
call, a directory creation, a file write or read, or an interrupt call. -/
inductive Action where
  | llmCall : Action
  | makedirs (dir : String) : Action
  | fileWrite (path content : String) : Action
  | fileRead (path : String) : Action
  | interruptCall (prompt : String) : Action
deriving DecidableEq

/-- External actions of one invocation of planner_node, in body order: the
single structured LLM call. -/
def plannerTrace : List Action := [.llmCall]

/-- External actions of one invocation of writer_node, in body order: the
single LLM call. -/
def writerTrace : List Action := [.llmCall]

/-- External actions of one invocation of aggregator_node, in body order:
create the parent directory of the configured path, then write the assembled
document to that path. -/
def aggregatorTrace (state : DocumentState) : List Action :=
  [.makedirs (dirName state.file_path), .fileWrite state.file_path (aggregator_doc state)]

/-- External actions of one invocation of wait_for_query_node, in body order:
the interrupt call is the very first thing the body does. -/
def waitTrace : List Action := [.interruptCall waitPrompt]

/-- External actions of one invocation of thinker_node, in body order: read
the document file back, then the LLM call. -/
def thinkerTrace (state : DocumentState) : List Action :=
  [.fileRead state.file_path, .llmCall]

/-- External actions of one invocation of answer_node, in body order: the
single LLM call. -/
def answerTrace : List Action := [.llmCall]

/-- The file writes contained in an action trace, in order. -/
def fileWrites (tr : List Action) : List (String × String) :=
  tr.filterMap fun a => match a with | .fileWrite p c => some (p, c) | _ => none

/-- The partial update contributed by writer task k of the fan-out over a
given state: writer_node on the isolated payload of the k-th descriptor
(its topic is the k-th element of sections_to_write). -/
def taskUpdate (s : DocumentState) (resp : Nat → PyVal) (k : Nat) : StateUpdate :=
  writer_node ⟨s.sections_to_write.getD k "", k⟩ (resp k)

/-- Concrete run configuration used by the witnesses: the initial state of
main.py with a three-section outline already planned. -/
def exState : DocumentState :=
  { contract_topic := "Enterprise SaaS Master Service Agreement"
    file_path := "./output/legal_document.md"
    sections_to_write := ["Definitions", "Term", "Liability"]
    completed_sections := 0
    generated_sections := []
    qa_query := none
    thought_process := none
    final_answer := none }

/-- Concrete opaque LLM responses used by the witnesses. -/
def exResp : Nat → PyVal := fun k => .pystr ("body " ++ toString k)

/-- Concrete state with two already generated sections, for the aggregator
witness. -/
def exAggState : DocumentState :=
  { exState with generated_sections := [⟨"Term", "term text", 1⟩, ⟨"Definitions", "def text", 0⟩] }

/-- The same two generated sections as exAggState, received in the other
completion order. -/
def exAggStateSwapped : DocumentState :=
  { exState with generated_sections := [⟨"Definitions", "def text", 0⟩, ⟨"Term", "term text", 1⟩] }

/-- The i-th task descriptor produced by assign_workers targets writer and
carries exactly the i-th section title and the index i. -/
theorem assign_workers_getElem (s : DocumentState) (i : Nat) :
    (assign_workers s)[i]? = (s.sections_to_write[i]?).map fun sec => Send.mk "writer" ⟨sec, i⟩ := by
  simp only [assign_workers, List.getElem?_map, List.getElem?_enum, Option.map_map]
  cases s.sections_to_write[i]? <;> rfl

/-- Unfolding of the tagged update list of the writer superstep: when every
key of the completion order is in range, each lookup of the dispatch list
succeeds and yields the corresponding task update. -/
theorem writer_tagged_eq (s : DocumentState) (resp : Nat → PyVal) (order : List Nat)
    (h : ∀ k ∈ order, k < s.sections_to_write.length) :
    (order.filterMap fun k =>
        ((assign_workers s)[k]?).map fun t => (k, writer_node t.arg (resp k)))
      = order.map fun k => (k, taskUpdate s resp k) := by
  induction order with
  | nil => rfl
  | cons a as ih =>
      have ha : a < s.sections_to_write.length := h a (List.mem_cons_self a as)
      have hget : s.sections_to_write[a]? = some s.sections_to_write[a] :=
        List.getElem?_eq_getElem ha
      have hhead : (((assign_workers s)[a]?).map fun t => (a, writer_node t.arg (resp a)))
          = some (a, taskUpdate s resp a) := by
        rw [assign_workers_getElem, hget]
        simp [taskUpdate, List.getD, hget]
      rw [List.filterMap_cons, hhead, List.map_cons,
        ih fun k hk => h k (List.mem_cons_of_mem a hk)]

/-- Two lists that are permutations of each other, both weakly sorted on a
numeric key that is duplicate-free, are equal. -/
theorem sorted_key_perm_eq {α : Type} (key : α → Nat) {l₁ l₂ : List α}
    (p : l₁.Perm l₂) (nd : (l₁.map key).Nodup)
    (s₁ : List.Pairwise (fun a b => key a ≤ key b) l₁)
    (s₂ : List.Pairwise (fun a b => key a ≤ key b) l₂) : l₁ = l₂ := by
  haveI : IsAntisymm α (fun a b => key a < key b) :=
    ⟨fun a b h1 h2 => absurd (lt_trans h1 h2) (lt_irrefl _)⟩
  have nd₂ : (l₂.map key).Nodup := (p.map key).nodup_iff.mp nd
  have ne₁ : List.Pairwise (fun a b => key a ≠ key b) l₁ := List.pairwise_map.mp nd
  have ne₂ : List.Pairwise (fun a b => key a ≠ key b) l₂ := List.pairwise_map.mp nd₂
  have slt₁ : List.Pairwise (fun a b => key a < key b) l₁ :=
    (s₁.and ne₁).imp fun h => lt_of_le_of_ne h.1 h.2
  have slt₂ : List.Pairwise (fun a b => key a < key b) l₂ :=
    (s₂.and ne₂).imp fun h => lt_of_le_of_ne h.1 h.2
  exact List.eq_of_perm_of_sorted p slt₁ slt₂

/-- Sorting by a numeric key yields a weakly key-sorted list. -/
theorem insertionSort_key_sorted {α : Type} (key : α → Nat) (l : List α) :
    List.Pairwise (fun a b => key a ≤ key b)
      (List.insertionSort (fun a b => key a ≤ key b) l) := by
  haveI : IsTotal α (fun a b => key a ≤ key b) := ⟨fun a b => Nat.le_total _ _⟩
  haveI : IsTrans α (fun a b => key a ≤ key b) := ⟨fun _ _ _ h1 h2 => le_trans h1 h2⟩
  exact List.sorted_insertionSort _ l

/-- Sorting a key-tagged list whose keys are a permutation of 0..N-1 by the
key recovers the list in key order 0, 1, ..., N-1. -/
theorem insertionSort_tagged {β : Type} (u : Nat → β) (N : Nat) (order : List Nat)
    (h : order.Perm (List.range N)) :
    List.insertionSort (fun a b : Nat × β => a.1 ≤ b.1) (order.map fun k => (k, u k))
      = (List.range N).map fun k => (k, u k) := by
  have hmapfst : ∀ l : List Nat, (l.map fun k => (k, u k)).map Prod.fst = l := by
    intro l
    induction l with
    | nil => rfl
    | cons a l ih => simp [ih]
  apply sorted_key_perm_eq Prod.fst
  · exact (List.perm_insertionSort _ _).trans (h.map _)
  · have hp : ((List.insertionSort (fun a b : Nat × β => a.1 ≤ b.1)
        (order.map fun k => (k, u k))).map Prod.fst).Perm (List.range N) := by
      refine ((List.perm_insertionSort _ _).map Prod.fst).trans ?_
      rw [hmapfst order]; exact h
    exact hp.nodup_iff.mpr (List.nodup_range N)
  · exact insertionSort_key_sorted Prod.fst _
  · exact List.pairwise_map.mpr ((List.pairwise_le_range N).imp fun hab => hab)

/-- Accumulated generated_sections after folding a list of updates: the prior
value followed by the concatenation of the written lists. -/
theorem foldl_applyUpdate_generated (us : List StateUpdate) (s : DocumentState) :
    (us.foldl applyUpdate s).generated_sections
      = s.generated_sections ++ (us.map fun u => u.generated_sections.getD []).flatten := by
  induction us generalizing s with
  | nil => simp
  | cons u us ih => simp [List.foldl_cons, ih, applyUpdate, List.append_assoc]

/-- Accumulated completed_sections after folding a list of updates: the prior
value plus the sum of the written counts. -/
theorem foldl_applyUpdate_completed (us : List StateUpdate) (s : DocumentState) :
    (us.foldl applyUpdate s).completed_sections
      = s.completed_sections + (us.map fun u => u.completed_sections.getD 0).sum := by
  induction us generalizing s with
  | nil => simp
  | cons u us ih => simp [List.foldl_cons, ih, applyUpdate, Nat.add_assoc]

/-- Flattening a list of singleton lists is the list of their elements. -/
theorem flatten_singletons {α β : Type} (l : List α) (g : α → β) :
    (l.map fun a => [g a]).flatten = l.map g := by
  induction l with
  | nil => rfl
  | cons a l ih => simp [ih]

/-- The writer superstep, for any completion order that is a permutation of
the task keys, reduces to folding the task updates in ascending key order. -/
theorem writerSuperstep_updates (s : DocumentState) (resp : Nat → PyVal) (order : List Nat)
    (h : order.Perm (List.range s.sections_to_write.length)) :
    writerSuperstep s resp order
      = ((List.range s.sections_to_write.length).map (taskUpdate s resp)).foldl applyUpdate s := by
  have hmem : ∀ k ∈ order, k < s.sections_to_write.length := fun k hk =>
    List.mem_range.mp (h.subset hk)
  unfold writerSuperstep fanInMerge
  rw [writer_tagged_eq s resp order hmem, insertionSort_tagged (taskUpdate s resp) _ order h,
    List.map_map]
  rfl

/-- The generated_sections field after the writer superstep: the prior value
followed by one SectionResult per task, in index order. -/
theorem writerSuperstep_generated (s : DocumentState) (resp : Nat → PyVal) (order : List Nat)
    (h : order.Perm (List.range s.sections_to_write.length)) :
    (writerSuperstep s resp order).generated_sections
      = s.generated_sections ++ (List.range s.sections_to_write.length).map fun k =>
          ⟨s.sections_to_write.getD k "", extractText (resp k), k⟩ := by
  rw [writerSuperstep_updates s resp order h, foldl_applyUpdate_generated, List.map_map]
  congr 1
  rw [show ((fun u : StateUpdate => u.generated_sections.getD []) ∘ taskUpdate s resp)
      = fun k => [⟨s.sections_to_write.getD k "", extractText (resp k), k⟩] from rfl]
  exact flatten_singletons _ _

/-- The completed_sections field after the writer superstep: the prior value
plus the number of tasks. -/
theorem writerSuperstep_completed (s : DocumentState) (resp : Nat → PyVal) (order : List Nat)
    (h : order.Perm (List.range s.sections_to_write.length)) :
    (writerSuperstep s resp order).completed_sections
      = s.completed_sections + s.sections_to_write.length := by
  rw [writerSuperstep_updates s resp order h, foldl_applyUpdate_completed, List.map_map]
  rw [show ((fun u : StateUpdate => u.completed_sections.getD 0) ∘ taskUpdate s resp)
      = fun _ => 1 from rfl]
  simp [List.map_const]

/-- Mapping the index out of the section results produced by the writer tasks
recovers the task keys. -/
theorem map_index_sections (s : DocumentState) (resp : Nat → PyVal) (l : List Nat) :
    l.map (SectionResult.index ∘ fun k =>
        (⟨s.sections_to_write.getD k "", extractText (resp k), k⟩ : SectionResult)) = l := by
  induction l with
  | nil => rfl
  | cons a l ih =>
      rw [List.map_cons, ih]
      rfl

/-- A superstep none of whose updates writes any overwrite-policy field never
raises the conflicting-write error. -/
theorem overwriteConflict_of_no_overwrites (us : List StateUpdate)
    (h : ∀ u ∈ us, writesOverwrite u = []) : overwriteConflict us = false := by
  induction us with
  | nil => rfl
  | cons u rest ih =>
      have hu : writesOverwrite u = [] := h u (List.mem_cons_self u rest)
      simp [overwriteConflict, hu, ih fun x hx => h x (List.mem_cons_of_mem u hx)]

/-- C1: for every run in which N writer tasks are fanned out with distinct
indices 0..N-1 (a run of this graph starts with generated_sections empty, per
main.py, and no step before the fan-out writes it), the value of the
accumulate-policy field generated_sections after the fan-in merge is sorted
by ascending index, for every possible completion order of the N tasks. -/
theorem claim_c1_fanin_sorted (s : DocumentState) (resp : Nat → PyVal) (order : List Nat)
    (hempty : s.generated_sections = [])
    (hperm : order.Perm (List.range s.sections_to_write.length)) :
    List.Sorted (fun a b : SectionResult => a.index ≤ b.index)
      (writerSuperstep s resp order).generated_sections := by
  rw [writerSuperstep_generated s resp order hperm, hempty, List.nil_append]
  exact List.pairwise_map.mpr ((List.pairwise_le_range _).imp fun hab => hab)

/-- Witness for C1 at a concrete three-section run completed in the order
2, 0, 1. -/
theorem claim_c1_witness :
    exState.generated_sections = [] ∧
      ([2, 0, 1] : List Nat).Perm (List.range exState.sections_to_write.length) ∧
      List.Sorted (fun a b : SectionResult => a.index ≤ b.index)
        (writerSuperstep exState exResp [2, 0, 1]).generated_sections :=
  ⟨rfl, by decide, claim_c1_fanin_sorted exState exResp [2, 0, 1] rfl (by decide)⟩

/-- C2: an invoke that reaches the suspending step wait_for_query returns the
Suspended signal carrying the exact prompt; a subsequent resume with value v
makes the re-entered step observe v as the interrupt return and produce the
update writing qa_query = v, and the run then completes with the same final
state as a hypothetical single-pass execution in which the suspend call had
returned v immediately. -/
theorem claim_c2_suspend_resume (s : DocumentState) (v : String)
    (thinkResp answerResp : PyVal) :
    invokeAtWait s none thinkResp answerResp
        = .suspendedWith "Document generation complete. Please enter your QA query." ∧
      wait_for_query_node (some v) = .done { qa_query := some v } ∧
      invokeAtWait s (some v) thinkResp answerResp
        = .finished (singlePassFromWait s v thinkResp answerResp) := by
  refine ⟨rfl, rfl, ?_⟩
  have hstate : applyUpdate s ({ qa_query := some v } : StateUpdate)
      = { s with qa_query := some v } := by
    cases s
    simp [applyUpdate]
  show InvokeResult.finished
        (runTail (applyUpdate s ({ qa_query := some v } : StateUpdate)) thinkResp answerResp)
      = .finished (singlePassFromWait s v thinkResp answerResp)
  rw [hstate]
  rfl

/-- C3: for every list of generated sections carrying distinct integer
indices, the document written by aggregator_node lists the sections in
ascending index order, and any two permutations of the same multiset of
generated sections produce an identical document. -/
theorem claim_c3_aggregator_deterministic (s₁ s₂ : DocumentState)
    (htopic : s₁.contract_topic = s₂.contract_topic)
    (hperm : s₁.generated_sections.Perm s₂.generated_sections)
    (hnd : (s₁.generated_sections.map SectionResult.index).Nodup) :
    List.Sorted (fun a b : SectionResult => a.index ≤ b.index) (aggregatorSorted s₁) ∧
      aggregator_doc s₁ = aggregator_doc s₂ := by
  have hs₁ := insertionSort_key_sorted SectionResult.index s₁.generated_sections
  have hs₂ := insertionSort_key_sorted SectionResult.index s₂.generated_sections
  refine ⟨hs₁, ?_⟩
  have heq : aggregatorSorted s₁ = aggregatorSorted s₂ := by
    apply sorted_key_perm_eq SectionResult.index
    · exact (List.perm_insertionSort _ _).trans
        (hperm.trans (List.perm_insertionSort _ _).symm)
    · exact (((List.perm_insertionSort _ _).map SectionResult.index).nodup_iff).mpr hnd
    · exact hs₁
    · exact hs₂
  unfold aggregator_doc
  rw [show aggregatorSorted s₁ = aggregatorSorted s₂ from heq, htopic]

/-- Witness for C3 at two concrete states holding the same two sections in
the two possible arrival orders. -/
theorem claim_c3_witness :
    exAggState.contract_topic = exAggStateSwapped.contract_topic ∧
      exAggState.generated_sections.Perm exAggStateSwapped.generated_sections ∧
      (exAggState.generated_sections.map SectionResult.index).Nodup ∧
      (List.Sorted (fun a b : SectionResult => a.index ≤ b.index)
          (aggregatorSorted exAggState) ∧
        aggregator_doc exAggState = aggregator_doc exAggStateSwapped) :=
  ⟨rfl, by decide, by decide,
    claim_c3_aggregator_deterministic exAggState exAggStateSwapped rfl (by decide) (by decide)⟩

/-- C4: for every state, assign_workers returns one task descriptor per
element of sections_to_write, the i-th targeting the writer step with an
isolated payload of exactly the two fields section_topic = sections_to_write
at i and index = i (the payload type WorkerState carries nothing else, never
the full shared state). -/
theorem claim_c4_dispatch_shape (s : DocumentState) :
    (assign_workers s).length = s.sections_to_write.length ∧
      ∀ i : Nat, (assign_workers s)[i]?
        = (s.sections_to_write[i]?).map fun sec => Send.mk "writer" ⟨sec, i⟩ :=
  ⟨by simp [assign_workers], fun i => assign_workers_getElem s i⟩

/-- C5: after the fan-out superstep running one writer task per element of
sections_to_write, in any completion order, completed_sections equals its
prior value plus N and generated_sections has gained exactly N elements whose
index values are exactly 0..N-1 (in that order, appended to the prior
value). -/
theorem claim_c5_superstep_counts (s : DocumentState) (resp : Nat → PyVal) (order : List Nat)
    (hperm : order.Perm (List.range s.sections_to_write.length)) :
    (writerSuperstep s resp order).completed_sections
        = s.completed_sections + s.sections_to_write.length ∧
      (writerSuperstep s resp order).generated_sections.length
        = s.generated_sections.length + s.sections_to_write.length ∧
      (writerSuperstep s resp order).generated_sections.map SectionResult.index
        = s.generated_sections.map SectionResult.index
            ++ List.range s.sections_to_write.length := by
  refine ⟨writerSuperstep_completed s resp order hperm, ?_, ?_⟩
  · rw [writerSuperstep_generated s resp order hperm]
    simp
  · rw [writerSuperstep_generated s resp order hperm, List.map_append, List.map_map]
    rw [map_index_sections s resp]

/-- Witness for C5 at a concrete three-section run completed in the order
1, 2, 0. -/
theorem claim_c5_witness :
    ([1, 2, 0] : List Nat).Perm (List.range exState.sections_to_write.length) ∧
      ((writerSuperstep exState exResp [1, 2, 0]).completed_sections
          = exState.completed_sections + exState.sections_to_write.length ∧
        (writerSuperstep exState exResp [1, 2, 0]).generated_sections.length
          = exState.generated_sections.length + exState.sections_to_write.length ∧
        (writerSuperstep exState exResp [1, 2, 0]).generated_sections.map SectionResult.index
          = exState.generated_sections.map SectionResult.index
              ++ List.range exState.sections_to_write.length) :=
  ⟨by decide, claim_c5_superstep_counts exState exResp [1, 2, 0] (by decide)⟩

/-- C6: the superstep schedule of the compiled graph, computed by the ready
set iteration from the builder edges, is exactly planner, then the writer
fan-out superstep, then aggregator, then wait_for_query, then thinker, then
answer — so the aggregator superstep opens only after the writer superstep
(all fanned-out tasks, barrier included) has closed, and no later step ever
runs before an earlier one. -/
theorem claim_c6_schedule :
    schedule
      = [["planner"], ["writer"], ["aggregator"], ["wait_for_query"], ["thinker"], ["answer"]] := by
  decide

/-- C7: wait_for_query is the only step whose body performs an interrupt
call, and its body performs no state write, file access or any other external
action before that call — the interrupt is the whole of its external trace,
so re-entering the step on resume repeats no effect. -/
theorem claim_c7_interrupt_purity :
    (∀ p : String, Action.interruptCall p ∉ plannerTrace) ∧
      (∀ p : String, Action.interruptCall p ∉ writerTrace) ∧
      (∀ (s : DocumentState) (p : String), Action.interruptCall p ∉ aggregatorTrace s) ∧
      (∀ (s : DocumentState) (p : String), Action.interruptCall p ∉ thinkerTrace s) ∧
      (∀ p : String, Action.interruptCall p ∉ answerTrace) ∧
      waitTrace = [Action.interruptCall waitPrompt] := by
  refine ⟨?_, ?_, ?_, ?_, ?_, rfl⟩ <;> intros <;>
    simp [plannerTrace, writerTrace, aggregatorTrace, thinkerTrace, answerTrace]

/-- C8: aggregator_node returns the empty partial update, so applying it
leaves every field of the shared state unchanged, and the only file its trace
writes is the document at state.file_path with the assembled document text. -/
theorem claim_c8_aggregator_frame (s : DocumentState) :
    applyUpdate s (aggregator_node s) = s ∧
      fileWrites (aggregatorTrace s) = [(s.file_path, aggregator_doc s)] := by
  constructor
  · cases s
    simp [applyUpdate, aggregator_node, emptyUpdate]
  · rfl

/-- C9: a superstep of a single task never conflicts, and the writer fan-out
superstep — the only superstep of this graph running several tasks — writes
only the two accumulate-policy fields, so the conflicting-overwrite error
branch is unreachable for every run of this graph. -/
theorem claim_c9_no_overwrite_conflict (s : DocumentState) (resp : Nat → PyVal) :
    (∀ u : StateUpdate, overwriteConflict [u] = false) ∧
      (∀ w : WorkerState, ∀ c : PyVal, writesOverwrite (writer_node w c) = []) ∧
      overwriteConflict
        ((assign_workers s).map fun t => writer_node t.arg (resp t.arg.index)) = false := by
  refine ⟨fun u => by simp [overwriteConflict], fun w c => rfl, ?_⟩
  apply overwriteConflict_of_no_overwrites
  intro u hu
  obtain ⟨t, _, rfl⟩ := List.mem_map.mp hu
  rfl

/-- C10: whatever the shape of the model response content — a string, a list
of dict or non-dict blocks, or any other value — the content stored by
writer_node in its SectionResult is always a string (the extractText
cascade). -/
theorem claim_c10_content_is_string (w : WorkerState) (resp : PyVal) :
    ∃ s : String, writer_node w resp
      = { generated_sections := some [{ title := w.section_topic, content := s, index := w.index }]
          completed_sections := some 1 } :=
  ⟨extractText resp, rfl⟩

end LegalDoc
